import Mathlib

/-!
Verification of the `CredentialSet` aggregate from
`src/core/crypto/CredentialSet.cpp` (opentxs).

A `CredentialSet` owns one optional master credential and two string-keyed
maps of child credentials (`m_mapCredentials` for active children and
`m_mapRevokedCredentials` for revoked children).  `std::map` is modelled as
an association list in iteration order; individual credentials are modelled
as records carrying the observable outcomes of the external `Credential`
capability interface (validation, signing, verification, re-encryption,
contact-data extraction, key pairs), since the credential subtypes live
outside this module.
-/

set_option autoImplicit false

namespace OpenTxs

/-- Credential roles, mirroring `proto::CredentialRole`. -/
inductive CredRole where
  | masterKey
  | childKey
  | contact
  | verifyRole
  | errorRole
  deriving DecidableEq

/-- Signature roles, mirroring `proto::SignatureRole`.  The concrete proto has
more members; `claimRole` and `peerRequest` stand for the roles that fall into
the `default:` branch of `CredentialSet::Sign`. -/
inductive SignatureRole where
  | pubcredential
  | nymidsource
  | privcredential
  | claimRole
  | peerRequest
  deriving DecidableEq

/-- Key roles, mirroring `proto::KeyRole` (`'A'`, `'E'`, `'S'`). -/
inductive KeyRole where
  | auth
  | encrypt
  | sign
  deriving DecidableEq

/-- Payloads (`OTData`) are abstract. -/
abbrev Data := Nat

/-- Contact data / verification sets are abstract payloads. -/
abbrev ContactData := Nat

/-- Keypairs (`OTKeypair`) are abstract identifiers. -/
abbrev Keypair := Nat

/-- The part of `proto::Signature` that `CredentialSet::Verify` reads. -/
structure Signature where
  credentialid : String
  deriving DecidableEq

/-- Serialized form of one credential (`proto::Credential`), restricted to the
fields the `CredentialSet` module reads: the content id, the declared role,
and whether `proto::Check<proto::Credential>` accepts it. -/
structure ProtoCredential where
  id : String
  role : CredRole
  protoOk : Bool
  deriving DecidableEq

/-- A credential as observed through the external `Credential` capability
interface.  Boolean fields record the outcomes of the corresponding member
functions on this credential; function-valued fields model member functions
whose result may depend on their arguments.  `isChildKey` records whether a
`dynamic_cast<ChildKeyCredential*>` on this credential succeeds. -/
structure Credential where
  id : String
  role : CredRole
  /-- result of `Validate()` -/
  validateOk : Bool
  /-- whether `dynamic_cast<(const) ChildKeyCredential*>` succeeds -/
  isChildKey : Bool
  /-- result of `hasPrivateData()` -/
  hasPrivate : Bool
  /-- result of `ReEncryptKeys(password, importing)` -/
  reEncryptOk : Bool
  /-- result of `SelfSign(password, pwData, true)` -/
  selfSignOk : Bool
  /-- result of `canSign()` -/
  canSignOk : Bool
  /-- `Verify(plaintext, sig, key)` on this credential -/
  cverify : Data → Signature → KeyRole → Bool
  /-- `Sign(plaintext, sig, ..., role, key)` on this credential -/
  csign : Data → SignatureRole → KeyRole → Bool
  /-- `m_AuthentKey` -/
  authKey : Keypair
  /-- `m_EncryptKey` -/
  encrKey : Keypair
  /-- `m_SigningKey` -/
  signKey : Keypair
  /-- `GetContactData(out)`: returns the status and the new value of the
  mutable out-parameter -/
  getContact : ContactData → Bool × ContactData
  /-- `GetVerificationSet(out)`: returns the status and the new value of the
  mutable out-parameter -/
  getVerification : ContactData → Bool × ContactData
  /-- whether `proto::Check` accepts `asSerialized(AS_PUBLIC, WITH_SIGNATURES)` -/
  protoOk : Bool

/-- `asSerialized(AS_PUBLIC, WITH_SIGNATURES)`: the public serialized form of
a credential, carrying its content id and role. -/
def Credential.asSerializedPub (c : Credential) : ProtoCredential :=
  ⟨c.id, c.role, c.protoOk⟩

/-- The child-credential map: `std::map<std::string, Credential*>` in
iteration order. -/
abbrev CredMap := List (String × Credential)

/-- The `CredentialSet` aggregate (`m_strNymID`, `version_`,
`m_MasterCredential`, `m_mapCredentials`, `m_mapRevokedCredentials`). -/
structure CredentialSet where
  nymID : String
  version : Nat
  masterCredential : Option Credential
  mapCredentials : CredMap
  mapRevokedCredentials : CredMap

/-- `GetMasterCredID`: the master credential's id, or `""` when the master is
absent. -/
def CredentialSet.GetMasterCredID (s : CredentialSet) : String :=
  match s.masterCredential with
  | some m => m.id
  | none => ""

/-- Child-credential loop of `VerifyInternally`: each child must `Validate()`,
stopping at the first failure. -/
def verifyChildrenGo : CredMap → Bool
  | [] => true
  | (_, c) :: rest => if !c.validateOk then false else verifyChildrenGo rest

/-- `CredentialSet::VerifyInternally`: requires a master credential, validates
it, then validates every child in `m_mapCredentials`. -/
def CredentialSet.VerifyInternally (s : CredentialSet) : Bool :=
  match s.masterCredential with
  | none => false
  | some m =>
      if !m.validateOk then false
      else verifyChildrenGo s.mapCredentials

theorem verifyChildrenGo_eq_all (l : CredMap) :
    verifyChildrenGo l = l.all (fun e => e.2.validateOk) := by
  induction l with
  | nil => rfl
  | cons e rest ih =>
      cases h : e.2.validateOk <;> simp [verifyChildrenGo, h, ih]

/-- C1: `VerifyInternally()` returns true if and only if the master credential
is present, the master credential validates, and every credential in the
active-children map validates; any failing check yields `false` (the function
is total and never raises). -/
theorem verifyInternally_iff (s : CredentialSet) :
    s.VerifyInternally = true ↔
      ∃ m, s.masterCredential = some m ∧ m.validateOk = true ∧
        ∀ e ∈ s.mapCredentials, e.2.validateOk = true := by
  unfold CredentialSet.VerifyInternally
  cases hm : s.masterCredential with
  | none => simp
  | some m =>
      cases hv : m.validateOk with
      | false => simp [hv]
      | true => simp [hv, verifyChildrenGo_eq_all, List.all_eq_true]

/-- Membership of a credential id on the optional caller-supplied revoked-ID
list (`plistRevokedIDs`): a null pointer means no filtering. -/
def revokedContains : Option (List String) → String → Bool
  | none, _ => false
  | some l, cid => l.contains cid

/-- Loop of `CredentialSet::GetChildCredential`: skip entries whose id is on
the revoked list (when one was supplied), return the first remaining entry
whose id equals `strSubID`. -/
def getChildGo (strSubID : String) (plistRevokedIDs : Option (List String)) :
    CredMap → Option Credential
  | [] => none
  | (cid, c) :: rest =>
      if revokedContains plistRevokedIDs cid then getChildGo strSubID plistRevokedIDs rest
      else if strSubID == cid then some c
      else getChildGo strSubID plistRevokedIDs rest

/-- `CredentialSet::GetChildCredential(strSubID, plistRevokedIDs)`. -/
def CredentialSet.GetChildCredential (s : CredentialSet) (strSubID : String)
    (plistRevokedIDs : Option (List String)) : Option Credential :=
  getChildGo strSubID plistRevokedIDs s.mapCredentials

/-- `CredentialSet::Verify(plaintext, sig, key)`: reject the master id, look
the signer up among the stored children (no revoked list passed), and
delegate to it. -/
def CredentialSet.Verify (s : CredentialSet) (plaintext : Data) (sig : Signature)
    (key : KeyRole) : Bool :=
  if sig.credentialid == s.GetMasterCredID then false
  else
    match s.GetChildCredential sig.credentialid none with
    | none => false
    | some credential => credential.cverify plaintext sig key

theorem getChildGo_none_eq_find (strSubID : String) (l : CredMap) :
    getChildGo strSubID none l =
      (l.find? (fun e => strSubID == e.1)).map Prod.snd := by
  induction l with
  | nil => rfl
  | cons e rest ih =>
      cases he : (strSubID == e.1) <;>
        simp [getChildGo, revokedContains, List.find?, he, ih]

/-- C2: `Verify(payload, sig, key)` returns `false` when `sig.credential_id`
equals the master credential id; otherwise it looks the signer up among the
stored children with no revocation filtering (first entry whose key equals
the id), returns `false` when there is no such child, and otherwise returns
that child's own verification result. -/
theorem verify_spec (s : CredentialSet) (plaintext : Data) (sig : Signature)
    (key : KeyRole) :
    s.Verify plaintext sig key =
      (if sig.credentialid = s.GetMasterCredID then false
       else
         match s.mapCredentials.find? (fun e => sig.credentialid == e.1) with
         | none => false
         | some e => e.2.cverify plaintext sig key) := by
  unfold CredentialSet.Verify CredentialSet.GetChildCredential
  rw [getChildGo_none_eq_find]
  by_cases h : sig.credentialid = s.GetMasterCredID
  · simp [h]
  · simp only [beq_iff_eq, if_neg h]
    cases hf : s.mapCredentials.find? (fun e => sig.credentialid == e.1) <;>
      simp [hf]

/-- Index loop of `GetChildCredentialByIndex`: `nLoopIndex` starts at `-1` and
is incremented before the comparison with `nIndex`. -/
def byIndexGo (nIndex : Int) (nLoopIndex : Int) : CredMap → Option Credential
  | [] => none
  | (_, c) :: rest =>
      let next := nLoopIndex + 1
      if nIndex = next then some c else byIndexGo nIndex next rest

/-- `CredentialSet::GetChildCredentialByIndex(nIndex)`: out-of-bounds indices
only log and fall through to `nullptr`. -/
def CredentialSet.GetChildCredentialByIndex (s : CredentialSet) (nIndex : Int) :
    Option Credential :=
  if nIndex < 0 ∨ (s.mapCredentials.length : Int) ≤ nIndex then none
  else byIndexGo nIndex (-1) s.mapCredentials

theorem byIndexGo_shift (l : CredMap) (n k : Int) :
    byIndexGo n k l = byIndexGo (n - 1) (k - 1) l := by
  induction l generalizing k with
  | nil => rfl
  | cons e rest ih =>
      have harith : (n = k + 1) ↔ (n - 1 = k - 1 + 1) := by omega
      by_cases hk : n = k + 1
      · simp [byIndexGo, hk, harith.mp hk]
      · have hk' : ¬ n - 1 = k - 1 + 1 := fun hc => hk (harith.mpr hc)
        simp only [byIndexGo, if_neg hk, if_neg hk']
        have hkk : k + 1 - 1 = k - 1 + 1 := by omega
        rw [ih (k + 1), hkk]

theorem byIndexGo_eq_get (nIndex : Int) (l : CredMap) (h0 : 0 ≤ nIndex) :
    byIndexGo nIndex (-1) l = (l.get? nIndex.toNat).map Prod.snd := by
  induction l generalizing nIndex with
  | nil => rfl
  | cons e rest ih =>
      by_cases hz : nIndex = 0
      · subst hz
        norm_num [byIndexGo]
      · have h1 : 0 ≤ nIndex - 1 := by omega
        have hne : ¬ nIndex = -1 + 1 := by omega
        have htn : nIndex.toNat = (nIndex - 1).toNat + 1 := by omega
        simp only [byIndexGo, if_neg hne]
        have hz01 : (-1 : Int) + 1 = 0 := by norm_num
        rw [hz01]
        have hstep : byIndexGo nIndex 0 rest = byIndexGo (nIndex - 1) (-1) rest := by
          have := byIndexGo_shift rest nIndex 0
          simpa using this
        rw [hstep, ih (nIndex - 1) h1, htn]
        rfl

/-- C10: `GetChildCredentialByIndex(n)` returns `nullptr` when `n < 0` or
`n ≥ GetChildCredentialCount()` (and, being `const`, never modifies the set),
and otherwise returns the `n`-th child credential in stored map order. -/
theorem getChildCredentialByIndex_spec (s : CredentialSet) (n : Int) :
    ((n < 0 ∨ (s.mapCredentials.length : Int) ≤ n) →
        s.GetChildCredentialByIndex n = none) ∧
      (0 ≤ n → n < (s.mapCredentials.length : Int) →
        s.GetChildCredentialByIndex n =
          (s.mapCredentials.get? n.toNat).map Prod.snd) := by
  constructor
  · intro h
    unfold CredentialSet.GetChildCredentialByIndex
    simp [h]
  · intro h0 hlt
    unfold CredentialSet.GetChildCredentialByIndex
    rw [if_neg (by omega)]
    exact byIndexGo_eq_get n s.mapCredentials h0

/-- Default-branch loop of `CredentialSet::Sign`: find the first child with
`canSign()` true and delegate to it; `false` when none exists. -/
def signDefaultGo (plaintext : Data) (role : SignatureRole) (key : KeyRole) :
    CredMap → Bool
  | [] => false
  | (_, c) :: rest =>
      if c.canSignOk then c.csign plaintext role key
      else signDefaultGo plaintext role key rest

/-- `CredentialSet::Sign(plaintext, sig, ..., role, key)` (the `OTData`
overload).  For `SIGROLE_PUBCREDENTIAL` the source dereferences
`m_MasterCredential` unconditionally; an absent master is undefined behaviour
there, modelled as `false`. -/
def CredentialSet.Sign (s : CredentialSet) (plaintext : Data)
    (role : SignatureRole) (key : KeyRole) : Bool :=
  match role with
  | SignatureRole.pubcredential =>
      match s.masterCredential with
      | some m => m.csign plaintext role key
      | none => false
  | SignatureRole.nymidsource => false
  | SignatureRole.privcredential => false
  | _ => signDefaultGo plaintext role key s.mapCredentials

theorem signDefaultGo_eq_find (plaintext : Data) (role : SignatureRole)
    (key : KeyRole) (l : CredMap) :
    signDefaultGo plaintext role key l =
      (match l.find? (fun e => e.2.canSignOk) with
       | some e => e.2.csign plaintext role key
       | none => false) := by
  induction l with
  | nil => rfl
  | cons e rest ih =>
      cases hc : e.2.canSignOk <;>
        simp [signDefaultGo, List.find?, hc, ih]

/-- C5: `Sign` delegates to the master credential for
`SIGROLE_PUBCREDENTIAL`; returns `false` without signing for
`SIGROLE_NYMIDSOURCE` and `SIGROLE_PRIVCREDENTIAL`; and for every other role
delegates to the first stored child with `canSign()` true, returning `false`
when no such child exists. -/
theorem sign_spec (s : CredentialSet) (plaintext : Data) (role : SignatureRole)
    (key : KeyRole) :
    (∀ m, s.masterCredential = some m →
        s.Sign plaintext SignatureRole.pubcredential key =
          m.csign plaintext SignatureRole.pubcredential key) ∧
      s.Sign plaintext SignatureRole.nymidsource key = false ∧
      s.Sign plaintext SignatureRole.privcredential key = false ∧
      (role ≠ SignatureRole.pubcredential → role ≠ SignatureRole.nymidsource →
        role ≠ SignatureRole.privcredential →
        s.Sign plaintext role key =
          (match s.mapCredentials.find? (fun e => e.2.canSignOk) with
           | some e => e.2.csign plaintext role key
           | none => false)) := by
  refine ⟨fun m hm => ?_, rfl, rfl, fun h1 h2 h3 => ?_⟩
  · simp [CredentialSet.Sign, hm]
  · rw [← signDefaultGo_eq_find]
    cases role <;> first | exact absurd rfl h1 | exact absurd rfl h2 |
      exact absurd rfl h3 | rfl

/-- Shared loop of `GetAuthKeypair` / `GetEncrKeypair` / `GetSignKeypair`
(the three source functions are textually identical up to the selected
member): skip non-key credentials, skip ids on the revoked list, and return
the requested keypair of the first remaining child. -/
def getKeypairGo (keyOf : Credential → Keypair)
    (plistRevokedIDs : Option (List String)) : CredMap → Option Keypair
  | [] => none
  | (cid, c) :: rest =>
      if !c.isChildKey then getKeypairGo keyOf plistRevokedIDs rest
      else if revokedContains plistRevokedIDs cid then
        getKeypairGo keyOf plistRevokedIDs rest
      else some (keyOf c)

/-- Master fallback of the keypair getters.  The source dereferences
`m_MasterCredential` (after `OT_ASSERT` on the keypair); an absent master is
undefined behaviour, modelled as keypair `0`. -/
def masterKeypairD (s : CredentialSet) (keyOf : Credential → Keypair) : Keypair :=
  match s.masterCredential with
  | some m => keyOf m
  | none => 0

/-- `CredentialSet::GetAuthKeypair(plistRevokedIDs)`. -/
def CredentialSet.GetAuthKeypair (s : CredentialSet)
    (plistRevokedIDs : Option (List String)) : Keypair :=
  match getKeypairGo (fun c => c.authKey) plistRevokedIDs s.mapCredentials with
  | some k => k
  | none => masterKeypairD s (fun c => c.authKey)

/-- `CredentialSet::GetEncrKeypair(plistRevokedIDs)`. -/
def CredentialSet.GetEncrKeypair (s : CredentialSet)
    (plistRevokedIDs : Option (List String)) : Keypair :=
  match getKeypairGo (fun c => c.encrKey) plistRevokedIDs s.mapCredentials with
  | some k => k
  | none => masterKeypairD s (fun c => c.encrKey)

/-- `CredentialSet::GetSignKeypair(plistRevokedIDs)`. -/
def CredentialSet.GetSignKeypair (s : CredentialSet)
    (plistRevokedIDs : Option (List String)) : Keypair :=
  match getKeypairGo (fun c => c.signKey) plistRevokedIDs s.mapCredentials with
  | some k => k
  | none => masterKeypairD s (fun c => c.signKey)

theorem getKeypairGo_eq_find (keyOf : Credential → Keypair)
    (plist : Option (List String)) (l : CredMap) :
    getKeypairGo keyOf plist l =
      (l.find? (fun e => e.2.isChildKey && !revokedContains plist e.1)).map
        (fun e => keyOf e.2) := by
  induction l with
  | nil => rfl
  | cons e rest ih =>
      cases hk : e.2.isChildKey with
      | false => simp [getKeypairGo, List.find?, hk, ih]
      | true =>
          cases hr : revokedContains plist e.1 <;>
            simp [getKeypairGo, List.find?, hk, hr, ih]

/-- C6: each keypair getter returns the requested keypair of the first
key-bearing child in stored map order whose id is not on the caller-supplied
revoked-ID list, and falls back to the master credential's keypair of the
same usage when no child qualifies. -/
theorem getKeypair_spec (s : CredentialSet) (plist : Option (List String))
    (m : Credential) (hm : s.masterCredential = some m) :
    s.GetAuthKeypair plist =
        (match s.mapCredentials.find?
            (fun e => e.2.isChildKey && !revokedContains plist e.1) with
         | some e => e.2.authKey
         | none => m.authKey) ∧
      s.GetEncrKeypair plist =
        (match s.mapCredentials.find?
            (fun e => e.2.isChildKey && !revokedContains plist e.1) with
         | some e => e.2.encrKey
         | none => m.encrKey) ∧
      s.GetSignKeypair plist =
        (match s.mapCredentials.find?
            (fun e => e.2.isChildKey && !revokedContains plist e.1) with
         | some e => e.2.signKey
         | none => m.signKey) := by
  unfold CredentialSet.GetAuthKeypair CredentialSet.GetEncrKeypair
    CredentialSet.GetSignKeypair
  rw [getKeypairGo_eq_find, getKeypairGo_eq_find, getKeypairGo_eq_find]
  cases hf : s.mapCredentials.find?
      (fun e => e.2.isChildKey && !revokedContains plist e.1) <;>
    simp [masterKeypairD, hm]

/-- `std::map::insert`: a no-op when the key is already present. -/
def mapInsert (m : CredMap) (k : String) (c : Credential) : CredMap :=
  if m.any (fun e => e.1 == k) then m else m ++ [(k, c)]

/-- `CredentialSet::AddContactCredential(contactData)`.  The external factory
`Credential::Create<ContactCredential>` is a collaborator outside this
module; its outcome is passed in as `newChildCredential` (with `none` for a
factory failure).  Returns the status together with the resulting set. -/
def CredentialSet.AddContactCredential (s : CredentialSet)
    (newChildCredential : Option Credential) : Bool × CredentialSet :=
  match s.masterCredential with
  | none => (false, s)
  | some _ =>
      match newChildCredential with
      | none => (false, s)
      | some c =>
          (true, { s with mapCredentials := mapInsert s.mapCredentials c.id c })

/-- C8: `AddContactCredential` on a set with no master credential returns
`false` and leaves the set (in particular its active-children map) unchanged,
whatever the factory would have produced; and when the credential factory
fails it likewise returns `false` with no entry inserted. -/
theorem addContactCredential_spec (s : CredentialSet) :
    (s.masterCredential = none →
        ∀ o, s.AddContactCredential o = (false, s)) ∧
      s.AddContactCredential none = (false, s) := by
  constructor
  · intro h o
    simp [CredentialSet.AddContactCredential, h]
  · unfold CredentialSet.AddContactCredential
    cases s.masterCredential <;> rfl

/-- Child loop of `ReEncryptPrivateCredentials`: non-key credentials are
skipped; a child key credential must re-encrypt, and when importing must also
re-sign (its `Save()` is a side effect not observable here); the loop aborts
with `false` at the first failure. -/
def reEncryptChildGo (bImporting : Bool) : CredMap → Bool
  | [] => true
  | (_, c) :: rest =>
      if !c.isChildKey then reEncryptChildGo bImporting rest
      else
        let bReEncrypt := c.reEncryptOk
        let bSigned := bReEncrypt && bImporting && c.selfSignOk
        if !bReEncrypt then false
        else if bImporting then
          (if bSigned then reEncryptChildGo bImporting rest else false)
        else reEncryptChildGo bImporting rest

/-- `CredentialSet::ReEncryptPrivateCredentials(theExportPassword, bImporting)`.
The source `OT_ASSERT`s the master credential; an absent master aborts the
process, modelled as `false`.  Outcomes of the external per-credential calls
(`ReEncryptKeys`, `SelfSign`) are the credential-record fields; `Save()` is a
side effect not observable here. -/
def CredentialSet.ReEncryptPrivateCredentials (s : CredentialSet)
    (bImporting : Bool) : Bool :=
  match s.masterCredential with
  | none => false
  | some m =>
      if m.hasPrivate then
        let bReEncryptMaster := m.reEncryptOk
        let bSignedMaster := bReEncryptMaster && bImporting && m.selfSignOk
        if !bReEncryptMaster then false
        else if bSignedMaster || !bImporting then
          reEncryptChildGo bImporting s.mapCredentials
        else false
      else false

theorem reEncryptChildGo_eq_all (bImporting : Bool) (l : CredMap) :
    reEncryptChildGo bImporting l =
      l.all (fun e => !e.2.isChildKey ||
        (e.2.reEncryptOk && (!bImporting || e.2.selfSignOk))) := by
  induction l with
  | nil => rfl
  | cons e rest ih =>
      cases hk : e.2.isChildKey with
      | false => simp [reEncryptChildGo, hk, ih]
      | true =>
          cases hre : e.2.reEncryptOk with
          | false => cases bImporting <;> simp [reEncryptChildGo, hk, hre]
          | true =>
              cases bImporting with
              | false => simp [reEncryptChildGo, hk, hre, ih]
              | true =>
                  cases hs : e.2.selfSignOk <;>
                    simp [reEncryptChildGo, hk, hre, hs, ih]

/-- C3: `ReEncryptPrivateCredentials(password, importing)` returns `false`
when the master credential has no private data, when re-encrypting the master
fails, when (importing) re-signing the master fails, or when re-encrypting or
(importing) re-signing any child key credential fails; it returns `true`
exactly when the master and every child key credential re-encrypt (and, when
importing, re-sign) successfully. -/
theorem reEncryptPrivateCredentials_spec (s : CredentialSet) (m : Credential)
    (bImporting : Bool) (hm : s.masterCredential = some m) :
    s.ReEncryptPrivateCredentials bImporting =
      (m.hasPrivate && m.reEncryptOk && (!bImporting || m.selfSignOk) &&
        s.mapCredentials.all (fun e => !e.2.isChildKey ||
          (e.2.reEncryptOk && (!bImporting || e.2.selfSignOk)))) := by
  unfold CredentialSet.ReEncryptPrivateCredentials
  rw [hm]
  cases hp : m.hasPrivate with
  | false => simp [hp]
  | true =>
      cases hre : m.reEncryptOk with
      | false => cases bImporting <;> simp [hre]
      | true =>
          cases bImporting with
          | false => simp [hp, hre, reEncryptChildGo_eq_all]
          | true =>
              cases hs : m.selfSignOk <;>
                simp [hp, hre, hs, reEncryptChildGo_eq_all]

/-- Loop of `GetContactData`: each contact-role child is called
unconditionally, overwriting both `found` and the out-parameter. -/
def getContactGo (found : Bool) (contactData : ContactData) :
    CredMap → Bool × ContactData
  | [] => (found, contactData)
  | (_, c) :: rest =>
      if c.role = CredRole.contact then
        let r := c.getContact contactData
        getContactGo r.1 r.2 rest
      else getContactGo found contactData rest

/-- `CredentialSet::GetContactData(contactData)`: returns the `found` flag
together with the final value of the mutable out-parameter. -/
def CredentialSet.GetContactData (s : CredentialSet)
    (contactData : ContactData) : Bool × ContactData :=
  getContactGo false contactData s.mapCredentials

/-- Loop of `GetVerificationSet`, same shape as `getContactGo` for the
verification role. -/
def getVerificationGo (found : Bool) (out : ContactData) :
    CredMap → Bool × ContactData
  | [] => (found, out)
  | (_, c) :: rest =>
      if c.role = CredRole.verifyRole then
        let r := c.getVerification out
        getVerificationGo r.1 r.2 rest
      else getVerificationGo found out rest

/-- `CredentialSet::GetVerificationSet(verificationSet)`. -/
def CredentialSet.GetVerificationSet (s : CredentialSet)
    (out : ContactData) : Bool × ContactData :=
  getVerificationGo false out s.mapCredentials

/-- The active children of a given role, in stored map order. -/
def credsOfRole (r : CredRole) (s : CredentialSet) : List Credential :=
  (s.mapCredentials.filter (fun e => e.2.role = r)).map Prod.snd

/-- Chaining the contact-role children: each call receives the output left by
the previous one and overwrites both components of the state. -/
def contactChain (st : Bool × ContactData) : List Credential → Bool × ContactData
  | [] => st
  | c :: rest => contactChain (c.getContact st.2) rest

/-- Chaining the verification-role children. -/
def verificationChain (st : Bool × ContactData) :
    List Credential → Bool × ContactData
  | [] => st
  | c :: rest => verificationChain (c.getVerification st.2) rest

theorem getContactGo_eq_chain (l : CredMap) (found : Bool) (out : ContactData) :
    getContactGo found out l =
      contactChain (found, out)
        ((l.filter (fun e => e.2.role = CredRole.contact)).map Prod.snd) := by
  induction l generalizing found out with
  | nil => rfl
  | cons e rest ih =>
      by_cases hr : e.2.role = CredRole.contact
      · simp only [getContactGo, if_pos hr, List.filter, hr]
        rw [ih]
        simp [hr, contactChain]
      · simp only [getContactGo, if_neg hr]
        rw [ih]
        simp [List.filter, hr]

theorem getVerificationGo_eq_chain (l : CredMap) (found : Bool)
    (out : ContactData) :
    getVerificationGo found out l =
      verificationChain (found, out)
        ((l.filter (fun e => e.2.role = CredRole.verifyRole)).map Prod.snd) := by
  induction l generalizing found out with
  | nil => rfl
  | cons e rest ih =>
      by_cases hr : e.2.role = CredRole.verifyRole
      · simp only [getVerificationGo, if_pos hr, List.filter, hr]
        rw [ih]
        simp [hr, verificationChain]
      · simp only [getVerificationGo, if_neg hr]
        rw [ih]
        simp [List.filter, hr]

theorem contactChain_append (cs : List Credential) (c : Credential)
    (st : Bool × ContactData) :
    contactChain st (cs ++ [c]) = c.getContact (contactChain st cs).2 := by
  induction cs generalizing st with
  | nil => rfl
  | cons d rest ih => simp [contactChain, ih]

theorem verificationChain_append (cs : List Credential) (c : Credential)
    (st : Bool × ContactData) :
    verificationChain st (cs ++ [c]) =
      c.getVerification (verificationChain st cs).2 := by
  induction cs generalizing st with
  | nil => rfl
  | cons d rest ih => simp [verificationChain, ih]

/-- C9: when the contact-role (resp. verification-role) children of the set
are `cs ++ [c]`, `GetContactData` (resp. `GetVerificationSet`) returns
exactly what the last matching child `c` produces — each matching child's
call unconditionally overwrites both the out-parameter and the `found` flag,
so with several matching children the last one wins. -/
theorem getContactData_lastMatch (s : CredentialSet) (init : ContactData)
    (cs vs : List Credential) (c v : Credential)
    (hc : credsOfRole CredRole.contact s = cs ++ [c])
    (hv : credsOfRole CredRole.verifyRole s = vs ++ [v]) :
    s.GetContactData init =
        c.getContact (contactChain (false, init) cs).2 ∧
      s.GetVerificationSet init =
        v.getVerification (verificationChain (false, init) vs).2 := by
  constructor
  · unfold CredentialSet.GetContactData
    rw [getContactGo_eq_chain]
    have := hc
    unfold credsOfRole at this
    rw [this, contactChain_append]
  · unfold CredentialSet.GetVerificationSet
    rw [getVerificationGo_eq_chain]
    have := hv
    unfold credsOfRole at this
    rw [this, verificationChain_append]

/-- First loop of `RevokeContactCredentials` / `RevokeVerificationCredentials`:
collect the ids (`it.second->ID()`) of the children with the given role. -/
def revCollect (r : CredRole) : CredMap → List String
  | [] => []
  | (_, c) :: rest =>
      if c.role = r then c.id :: revCollect r rest else revCollect r rest

/-- Second loop: `m_mapCredentials.erase(it)` for each collected id — erasure
by map key. -/
def eraseKeys (m : CredMap) (ids : List String) : CredMap :=
  ids.foldl (fun acc i => acc.filter (fun e => !(e.1 == i))) m

/-- `CredentialSet::RevokeContactCredentials(contactCredentialIDs)`: returns
the resulting set together with the output list (the collected ids are
appended to the caller's list). -/
def CredentialSet.RevokeContactCredentials (s : CredentialSet)
    (contactCredentialIDs : List String) : CredentialSet × List String :=
  let credentialsToDelete := revCollect CredRole.contact s.mapCredentials
  ({ s with mapCredentials := eraseKeys s.mapCredentials credentialsToDelete },
   contactCredentialIDs ++ credentialsToDelete)

/-- `CredentialSet::RevokeVerificationCredentials(verificationCredentialIDs)`. -/
def CredentialSet.RevokeVerificationCredentials (s : CredentialSet)
    (verificationCredentialIDs : List String) : CredentialSet × List String :=
  let credentialsToDelete := revCollect CredRole.verifyRole s.mapCredentials
  ({ s with mapCredentials := eraseKeys s.mapCredentials credentialsToDelete },
   verificationCredentialIDs ++ credentialsToDelete)

theorem revCollect_eq_filterMap (r : CredRole) (m : CredMap) :
    revCollect r m =
      (m.filter (fun e => e.2.role == r)).map (fun e => e.2.id) := by
  induction m with
  | nil => rfl
  | cons e rest ih =>
      cases hb : (e.2.role == r) with
      | true =>
          have hr : e.2.role = r := beq_iff_eq.mp hb
          simp [revCollect, List.filter_cons, hb, hr, ih]
      | false =>
          have hr : ¬ e.2.role = r := by
            intro hc; rw [beq_iff_eq.mpr hc] at hb; cases hb
          simp [revCollect, List.filter_cons, hb, hr, ih]

theorem eraseKeys_eq_filter (ids : List String) (m : CredMap) :
    eraseKeys m ids = m.filter (fun e => !(ids.contains e.1)) := by
  induction ids generalizing m with
  | nil => simp [eraseKeys]
  | cons i rest ih =>
      show eraseKeys (m.filter (fun e => !(e.1 == i))) rest = _
      rw [ih, List.filter_filter]
      apply List.filter_congr
      intro e _
      have hcc : (i :: rest).contains e.1 = ((e.1 == i) || rest.contains e.1) := rfl
      rw [hcc]
      cases hi : (e.1 == i) <;> simp [hi]

theorem mem_revCollect_iff (r : CredRole) (m : CredMap)
    (hid : ∀ e ∈ m, e.1 = e.2.id)
    (hnd : (m.map Prod.fst).Nodup)
    (e : String × Credential) (he : e ∈ m) :
    e.1 ∈ revCollect r m ↔ e.2.role = r := by
  rw [revCollect_eq_filterMap]
  constructor
  · intro hmem
    rcases List.mem_map.mp hmem with ⟨f, hf, hfe⟩
    rcases List.mem_filter.mp hf with ⟨hfm, hfr⟩
    have hkey : f.1 = e.1 := by rw [hid f hfm, hfe]
    have : f = e := List.inj_on_of_nodup_map hnd hfm he hkey
    subst this
    exact beq_iff_eq.mp hfr
  · intro hr
    refine List.mem_map.mpr ⟨e, List.mem_filter.mpr ⟨he, beq_iff_eq.mpr hr⟩, ?_⟩
    exact (hid e he).symm

/-- C7, amended: `RevokeContactCredentials` (resp.
`RevokeVerificationCredentials`) removes every matching-role entry from the
active-children map and appends its id to the caller's output list, but it
deletes those entries outright: the revoked-children map is left unchanged
and does not receive the removed ids.  (Hypotheses: every entry is keyed by
its credential's id and the keys are distinct — the `std::map` invariants.) -/
theorem revokeCredentials_spec (s : CredentialSet) (ids vds : List String)
    (hid : ∀ e ∈ s.mapCredentials, e.1 = e.2.id)
    (hnd : (s.mapCredentials.map Prod.fst).Nodup) :
    ((s.RevokeContactCredentials ids).1.mapCredentials =
        s.mapCredentials.filter (fun e => !(e.2.role == CredRole.contact)) ∧
      (s.RevokeContactCredentials ids).2 =
        ids ++ (s.mapCredentials.filter
          (fun e => e.2.role == CredRole.contact)).map (fun e => e.2.id) ∧
      (s.RevokeContactCredentials ids).1.mapRevokedCredentials =
        s.mapRevokedCredentials) ∧
    ((s.RevokeVerificationCredentials vds).1.mapCredentials =
        s.mapCredentials.filter (fun e => !(e.2.role == CredRole.verifyRole)) ∧
      (s.RevokeVerificationCredentials vds).2 =
        vds ++ (s.mapCredentials.filter
          (fun e => e.2.role == CredRole.verifyRole)).map (fun e => e.2.id) ∧
      (s.RevokeVerificationCredentials vds).1.mapRevokedCredentials =
        s.mapRevokedCredentials) := by
  have key : ∀ r : CredRole,
      eraseKeys s.mapCredentials (revCollect r s.mapCredentials) =
        s.mapCredentials.filter (fun e => !(e.2.role == r)) := by
    intro r
    rw [eraseKeys_eq_filter]
    apply List.filter_congr
    intro e he
    have hiff := mem_revCollect_iff r s.mapCredentials hid hnd e he
    cases hc : (revCollect r s.mapCredentials).contains e.1 with
    | true =>
        have hmem : e.1 ∈ revCollect r s.mapCredentials := List.elem_iff.mp hc
        have : e.2.role = r := hiff.mp hmem
        simp [this]
    | false =>
        have hnot : ¬ e.1 ∈ revCollect r s.mapCredentials := by
          intro hmem
          have hc' : List.elem e.1 (revCollect r s.mapCredentials) = false := hc
          rw [List.elem_iff.mpr hmem] at hc'
          cases hc'
        have : ¬ e.2.role = r := fun hr => hnot (hiff.mpr hr)
        simp [this]
  refine ⟨⟨key CredRole.contact, ?_, rfl⟩, key CredRole.verifyRole, ?_, rfl⟩
  · show ids ++ revCollect CredRole.contact s.mapCredentials = _
    rw [revCollect_eq_filterMap]
  · show vds ++ revCollect CredRole.verifyRole s.mapCredentials = _
    rw [revCollect_eq_filterMap]

/-- Serialization mode, mirroring `proto::CredentialSetMode`. -/
inductive CredSetMode where
  | index
  | full
  deriving DecidableEq

/-- `proto::CredentialSet`: the wire form.  Unset protobuf fields are `none`
or `[]`. -/
structure ProtoCredentialSet where
  version : Nat
  nymid : String
  masterid : String
  mode : CredSetMode
  activechildids : List String
  revokedchildids : List String
  mastercredential : Option ProtoCredential
  activechildren : List ProtoCredential
  revokedchildren : List ProtoCredential

/-- Modelled from the spec: the external `Credential::CredentialFactory`
(missing from `src/`) reconstructs a credential from its serialized form and
"fails with `DeserializationError` on malformed input"; only the fields this
module reads (id, role, serialized-form validity) are determined by the
rebuilt record. -/
def credOfProto (p : ProtoCredential) : Credential :=
  { id := p.id, role := p.role, validateOk := false, isChildKey := false,
    hasPrivate := false, reEncryptOk := false, selfSignOk := false,
    canSignOk := false, cverify := fun _ _ _ => false,
    csign := fun _ _ _ => false, authKey := 0, encrKey := 0, signKey := 0,
    getContact := fun d => (false, d), getVerification := fun d => (false, d),
    protoOk := p.protoOk }

/-- Modelled from the spec: `Credential::CredentialFactory` succeeds exactly
on well-formed serialized input. -/
def credentialFactory (p : ProtoCredential) : Option Credential :=
  if p.protoOk then some (credOfProto p) else none

/-- The factory result filtered through
`dynamic_cast<MasterCredential*>` (equivalently, the factory invoked with
expected role `CREDROLE_MASTERKEY`): per the spec, a "`RoleMismatchError` if
the top-level credential's declared role is not Master". -/
def credentialFactoryMaster (p : ProtoCredential) : Option Credential :=
  match credentialFactory p with
  | some c => if c.role = CredRole.masterKey then some c else none
  | none => none

/-- `CredentialSet::Serialize(mode)`: `ONLY_IDS` emits the id lists, `FULL`
embeds the public serialized forms of the master and of both child maps. -/
def CredentialSet.Serialize (s : CredentialSet) (onlyIds : Bool) :
    ProtoCredentialSet :=
  if onlyIds then
    { version := 1, nymid := s.nymID, masterid := s.GetMasterCredID,
      mode := CredSetMode.index,
      activechildids := s.mapCredentials.map Prod.fst,
      revokedchildids := s.mapRevokedCredentials.map Prod.fst,
      mastercredential := none, activechildren := [], revokedchildren := [] }
  else
    { version := 1, nymid := s.nymID, masterid := s.GetMasterCredID,
      mode := CredSetMode.full,
      activechildids := [], revokedchildids := [],
      mastercredential := s.masterCredential.map Credential.asSerializedPub,
      activechildren := s.mapCredentials.map (fun e => e.2.asSerializedPub),
      revokedchildren :=
        s.mapRevokedCredentials.map (fun e => e.2.asSerializedPub) }

/-- `CredentialSet::LoadChildKeyCredential(serializedCred)`: reject input
failing `proto::Check` or declaring the master role, then erase any existing
entry with the same id and insert the rebuilt credential. -/
def loadChildKeyCredential (m : CredMap) (p : ProtoCredential) : CredMap :=
  if !p.protoOk then m
  else if p.role = CredRole.masterKey then m
  else mapInsert (m.filter (fun e => !(e.1 == p.id))) p.id (credOfProto p)

/-- External blob storage (`App::Me().DB()`), a get-by-ID collaborator. -/
abbrev CredStorage := List (String × ProtoCredential)

/-- `storage.Load(id)`. -/
def storageLoad (st : CredStorage) (i : String) : Option ProtoCredential :=
  (st.find? (fun e => e.1 == i)).map Prod.snd

/-- `CredentialSet::Load_Master`: fetch the master's serialized form from
storage and rebuild it with expected role `CREDROLE_MASTERKEY`; on any
failure the master stays absent. -/
def loadMasterS (st : CredStorage) (masterID : String) : Option Credential :=
  match storageLoad st masterID with
  | none => none
  | some p => credentialFactoryMaster p

/-- `CredentialSet::LoadChildKeyCredential(strSubID)`: storage fetch followed
by the serialized-credential loader; a missing blob leaves the map
unchanged. -/
def loadChildKeyCredentialByID (st : CredStorage) (m : CredMap) (i : String) :
    CredMap :=
  match storageLoad st i with
  | none => m
  | some p => loadChildKeyCredential m p

/-- The deserializing constructor
`CredentialSet::CredentialSet(const proto::CredentialSet&)`.  In `INDEX` mode
the master and children are fetched from storage by id; in `FULL` mode they
are rebuilt from the embedded forms.  Note that neither branch reads
`revokedchildren`/`revokedchildids`. -/
def credentialSetFromProto (st : CredStorage) (p : ProtoCredentialSet) :
    CredentialSet :=
  match p.mode with
  | CredSetMode.index =>
      { version := p.version, nymID := p.nymid,
        masterCredential := loadMasterS st p.masterid,
        mapCredentials :=
          p.activechildids.foldl (loadChildKeyCredentialByID st) [],
        mapRevokedCredentials := [] }
  | CredSetMode.full =>
      { version := p.version, nymID := p.nymid,
        masterCredential :=
          match p.mastercredential with
          | some mp => credentialFactoryMaster mp
          | none => none,
        mapCredentials := p.activechildren.foldl loadChildKeyCredential [],
        mapRevokedCredentials := [] }

theorem loadChildren_keys (l : CredMap) (acc : CredMap)
    (hch : ∀ e ∈ l, e.1 = e.2.id ∧ e.2.protoOk = true ∧
      e.2.role ≠ CredRole.masterKey)
    (hdisj : ∀ e ∈ l, ∀ a ∈ acc, a.1 ≠ e.1)
    (hnd : (l.map Prod.fst).Nodup) :
    ((l.map (fun e => e.2.asSerializedPub)).foldl loadChildKeyCredential
        acc).map Prod.fst = acc.map Prod.fst ++ l.map Prod.fst := by
  induction l generalizing acc with
  | nil => simp
  | cons e rest ih =>
      obtain ⟨hkey, hok, hrole⟩ := hch e (List.mem_cons_self e rest)
      have hstep : loadChildKeyCredential acc e.2.asSerializedPub =
          acc ++ [(e.2.id, credOfProto e.2.asSerializedPub)] := by
        unfold loadChildKeyCredential Credential.asSerializedPub
        simp only [hok]
        rw [if_neg (by simp), if_neg hrole]
        have hfilter : acc.filter (fun a => !(a.1 == e.2.id)) = acc := by
          apply List.filter_eq_self.mpr
          intro a ha
          have : a.1 ≠ e.2.id := by
            rw [← hkey]
            exact hdisj e (List.mem_cons_self e rest) a ha
          simp [this]
        rw [hfilter]
        unfold mapInsert
        rw [if_neg ?hne]
        case hne =>
          intro hany
          rcases List.any_eq_true.mp hany with ⟨a, ha, hbeq⟩
          have : a.1 ≠ e.2.id := by
            rw [← hkey]
            exact hdisj e (List.mem_cons_self e rest) a ha
          exact this (by simpa using hbeq)
      simp only [List.map_cons, List.foldl_cons, hstep]
      rw [ih (acc ++ [(e.2.id, credOfProto e.2.asSerializedPub)])
        (fun f hf => hch f (List.mem_cons_of_mem e hf))
        ?disj (by simpa using hnd.of_cons)]
      · simp [← hkey]
      case disj =>
        intro f hf a ha
        rcases List.mem_append.mp ha with hin | hin
        · exact hdisj f (List.mem_cons_of_mem e hf) a hin
        · have ha1 : a.1 = e.2.id := by
            rcases List.mem_singleton.mp hin with rfl
            rfl
          rw [ha1, ← hkey]
          have hnotin : e.1 ∉ rest.map Prod.fst := by
            have := hnd
            rw [List.map_cons, List.nodup_cons] at this
            exact this.1
          intro hcontra
          exact hnotin (hcontra ▸ List.mem_map_of_mem Prod.fst hf)

/-- C4, counterexample input: a set carrying one revoked child credential. -/
def mkCred (i : String) (r : CredRole) : Credential :=
  { id := i, role := r, validateOk := true, isChildKey := true,
    hasPrivate := true, reEncryptOk := true, selfSignOk := true,
    canSignOk := true, cverify := fun _ _ _ => true,
    csign := fun _ _ _ => true, authKey := 1, encrKey := 2, signKey := 3,
    getContact := fun d => (true, d), getVerification := fun d => (true, d),
    protoOk := true }

def sWithRevoked : CredentialSet :=
  { nymID := "nym1", version := 1,
    masterCredential := some (mkCred "master1" CredRole.masterKey),
    mapCredentials := [],
    mapRevokedCredentials := [("rev1", mkCred "rev1" CredRole.contact)] }

/-- C4 fails as stated: serializing a set holding one revoked child in `FULL`
mode and deserializing the result yields a set whose revoked-children id set
is empty rather than `["rev1"]` — the deserializing constructor never reads
`revokedchildren`. -/
theorem roundtrip_counterexample :
    ¬ ((credentialSetFromProto []
          (sWithRevoked.Serialize false)).mapRevokedCredentials.map Prod.fst =
        sWithRevoked.mapRevokedCredentials.map Prod.fst) := by
  decide

/-- C4, amended: for a set whose master is present with the master role and a
well-formed serialized form, whose active children are keyed by their own
well-formed, non-master credentials with distinct keys, and whose revoked map
is empty (always the case in this design, which never populates it),
`FULL`-serialization followed by deserialization preserves the master
credential id, the active child id list, and the (empty) revoked child id
set.  With a nonempty revoked map the revoked ids are lost (see the
counterexample). -/
theorem roundtrip_full_spec (s : CredentialSet) (m : Credential)
    (st : CredStorage)
    (hm : s.masterCredential = some m)
    (hrole : m.role = CredRole.masterKey)
    (hok : m.protoOk = true)
    (hch : ∀ e ∈ s.mapCredentials, e.1 = e.2.id ∧ e.2.protoOk = true ∧
      e.2.role ≠ CredRole.masterKey)
    (hnd : (s.mapCredentials.map Prod.fst).Nodup)
    (hrev : s.mapRevokedCredentials = []) :
    (credentialSetFromProto st (s.Serialize false)).GetMasterCredID =
        s.GetMasterCredID ∧
      (credentialSetFromProto st (s.Serialize false)).mapCredentials.map
          Prod.fst = s.mapCredentials.map Prod.fst ∧
      (credentialSetFromProto st (s.Serialize false)).mapRevokedCredentials.map
          Prod.fst = s.mapRevokedCredentials.map Prod.fst := by
  unfold CredentialSet.Serialize credentialSetFromProto
  simp only [if_neg (Bool.false_ne_true)]
  refine ⟨?_, ?_, ?_⟩
  · unfold CredentialSet.GetMasterCredID
    rw [hm]
    simp only [Option.map_some']
    unfold credentialFactoryMaster credentialFactory Credential.asSerializedPub
    simp [hok, hrole, credOfProto]
  · have := loadChildren_keys s.mapCredentials [] hch (by simp) hnd
    simpa using this
  · simp [hrev]

/-! Concrete sample data used to witness the conditional theorems. -/

def mW : Credential :=
  { mkCred "m0" CredRole.masterKey with isChildKey := false }

def k1 : Credential :=
  { mkCred "k1" CredRole.childKey with authKey := 10, encrKey := 20, signKey := 30 }

def k2 : Credential :=
  { mkCred "k2" CredRole.childKey with authKey := 11, encrKey := 21, signKey := 31 }

def c1 : Credential :=
  { mkCred "c1" CredRole.contact with
    isChildKey := false,
    getContact := fun d => (true, d + 100) }

def c2 : Credential :=
  { mkCred "c2" CredRole.contact with
    isChildKey := false,
    getContact := fun d => (true, d + 200) }

def v1 : Credential :=
  { mkCred "v1" CredRole.verifyRole with
    isChildKey := false,
    getVerification := fun d => (true, d + 300) }

def v2 : Credential :=
  { mkCred "v2" CredRole.verifyRole with
    isChildKey := false,
    getVerification := fun d => (false, d + 400) }

def sW : CredentialSet :=
  { nymID := "nym0", version := 1, masterCredential := some mW,
    mapCredentials :=
      [("k1", k1), ("k2", k2), ("c1", c1), ("c2", c2), ("v1", v1), ("v2", v2)],
    mapRevokedCredentials := [] }

def sNoMaster : CredentialSet :=
  { nymID := "nym0", version := 1, masterCredential := none,
    mapCredentials := [("k1", k1)], mapRevokedCredentials := [] }

/-- Witness for C3 at a concrete set: importing re-encryption succeeds when
the master and every child key credential re-encrypt and re-sign. -/
theorem reEncrypt_witness :
    sW.masterCredential = some mW ∧
      sW.ReEncryptPrivateCredentials true = true := by
  refine ⟨rfl, ?_⟩
  rw [reEncryptPrivateCredentials_spec sW mW true rfl]
  decide

/-- Witness for C5 at a concrete set: master handles the public-credential
role, the forbidden roles fail, a generic role reaches the first signing
child. -/
theorem sign_witness :
    sW.Sign 7 SignatureRole.pubcredential KeyRole.sign = true ∧
      sW.Sign 7 SignatureRole.nymidsource KeyRole.sign = false ∧
      sW.Sign 7 SignatureRole.claimRole KeyRole.sign = true := by
  obtain ⟨h1, h2, _, h4⟩ := sign_spec sW 7 SignatureRole.claimRole KeyRole.sign
  exact ⟨(h1 mW rfl).trans rfl, h2,
    (h4 (by decide) (by decide) (by decide)).trans (by decide)⟩

/-- Witness for C6 at a concrete set: excluding the first key child selects
the second; the master is present. -/
theorem getKeypair_witness :
    sW.masterCredential = some mW ∧
      sW.GetAuthKeypair (some ["k1"]) = 11 ∧
      sW.GetEncrKeypair (some ["k1"]) = 21 ∧
      sW.GetSignKeypair (some ["k1"]) = 31 := by
  obtain ⟨h1, h2, h3⟩ := getKeypair_spec sW (some ["k1"]) mW rfl
  exact ⟨rfl, h1.trans (by decide), h2.trans (by decide), h3.trans (by decide)⟩

/-- Witness for the amended C7 at a concrete set satisfying the `std::map`
key invariants. -/
theorem revoke_witness :
    (sW.RevokeContactCredentials []).2 = ["c1", "c2"] ∧
      (sW.RevokeContactCredentials []).1.mapRevokedCredentials =
        sW.mapRevokedCredentials ∧
      (sW.RevokeVerificationCredentials []).2 = ["v1", "v2"] := by
  obtain ⟨⟨_, hc2, hc3⟩, _, hv2, _⟩ :=
    revokeCredentials_spec sW [] [] (by decide) (by decide)
  exact ⟨hc2.trans (by decide), hc3, hv2.trans (by decide)⟩

/-- Witness for C8 at a concrete masterless set. -/
theorem addContact_witness :
    sNoMaster.masterCredential = none ∧
      sNoMaster.AddContactCredential (some c1) = (false, sNoMaster) ∧
      sNoMaster.AddContactCredential none = (false, sNoMaster) := by
  obtain ⟨h1, h2⟩ := addContactCredential_spec sNoMaster
  exact ⟨rfl, h1 rfl (some c1), h2⟩

/-- Witness for C9 at a concrete set with two contact-role and two
verification-role children: the second (last) one determines the result. -/
theorem getContactData_witness :
    sW.GetContactData 0 = (true, 300) ∧
      sW.GetVerificationSet 0 = (false, 700) := by
  obtain ⟨h1, h2⟩ := getContactData_lastMatch sW 0 [c1] [v1] c2 v2 rfl rfl
  exact ⟨h1.trans (by decide), h2.trans (by decide)⟩

/-- Witness for C10 at concrete indices: negative and too-large indices give
`none`, an in-range index gives the child at that position. -/
theorem getByIndex_witness :
    sW.GetChildCredentialByIndex (-1) = none ∧
      sW.GetChildCredentialByIndex 6 = none ∧
      sW.GetChildCredentialByIndex 1 = some k2 := by
  refine ⟨(getChildCredentialByIndex_spec sW (-1)).1 (by decide),
    (getChildCredentialByIndex_spec sW 6).1 (by decide),
    ((getChildCredentialByIndex_spec sW 1).2 (by decide) (by decide)).trans rfl⟩

/-- Witness for the amended C4 at a concrete set satisfying the hypotheses
(in particular an empty revoked map). -/
theorem roundtrip_witness :
    (credentialSetFromProto [] (sW.Serialize false)).GetMasterCredID =
        sW.GetMasterCredID ∧
      (credentialSetFromProto [] (sW.Serialize false)).mapCredentials.map
          Prod.fst = sW.mapCredentials.map Prod.fst ∧
      (credentialSetFromProto [] (sW.Serialize false)).mapRevokedCredentials.map
          Prod.fst = sW.mapRevokedCredentials.map Prod.fst :=
  roundtrip_full_spec sW mW [] rfl rfl rfl (by decide) (by decide) rfl

/-- C7 fails as stated: revoking the contact credentials of a concrete set
removes id `"c1"` from the active children without adding it to the
revoked-children map. -/
theorem revoke_counterexample :
    "c1" ∈ sW.mapCredentials.map Prod.fst ∧
      ¬ ("c1" ∈ (sW.RevokeContactCredentials []).1.mapCredentials.map
          Prod.fst) ∧
      ¬ ("c1" ∈ (sW.RevokeContactCredentials []).1.mapRevokedCredentials.map
          Prod.fst) := by
  decide

end OpenTxs
